import Mathlib

/-
Verification development for the gw2lib request-coalescing caching HTTP
client core (src/http-async/src/client/requester.rs).

The embedding models:
  * the endpoint descriptor constants (URL, VERSION, AUTHENTICATED, LOCALE,
    ALL, PAGING) as a structure;
  * the client configuration (host, language, api key) and the
    CachedRequest wrapper (client + cache_duration) with its cached/forced
    constructors;
  * the pure helpers get_header, get_expire_from_header, get_cache_expiry,
    build_request and join_ids, translated line by line from the source;
  * the cache as an association list keyed by (type tag, id hash,
    optional language), with the expiry-aware lookup;
  * sequential models of single, get_or_ids, many, page and
    get_all_by_paging, threading an explicit state (cache, transport call
    log, cache-read counter, broadcast log) and taking the transport and
    decoding results as oracles;
  * a small-step interleaving model of concurrent single() callers for the
    coalescing property.

Machine integers: the Rust code uses i64 (chrono Duration seconds) and
usize; these are modelled as Int and Nat.  None of the claims depends on
overflow behaviour.  JSON deserialization is abstracted (the response body
carries the already-decoded value), matching the scope of the spec which
treats decoding as an external capability.
-/

namespace Gw2

/-- Modelled from the spec: the Language enum lives in the gw2api_model
crate, which is not under src/.  The spec describes it as an enumerated
locale tag used in request URLs and as a cache-key discriminator. -/
inductive Lang where
  | en
  | es
  | de
  | fr
deriving DecidableEq

/-- Modelled from the spec: Language::as_str, the string form used in the
lang= query parameter. -/
def Lang.asStr : Lang → String
  | .en => "en"
  | .es => "es"
  | .de => "de"
  | .fr => "fr"

/-- Endpoint descriptor constants, per resource type: URL path suffix,
schema version, the AUTHENTICATED / LOCALE flags, the BulkEndpoint ALL and
PAGING flags, and a numeric tag standing for the TypeId of the decoded
value type (the cache and inflight keys include it). -/
structure EndpointD where
  URL : String
  VERSION : String
  AUTHENTICATED : Bool
  LOCALE : Bool
  ALL : Bool
  PAGING : Bool
  ty : Nat
deriving DecidableEq

/-- Error surface of the core (EndpointError in the source). -/
inductive Err where
  | NotAuthenticated
  | UnsupportedEndpointQuery
  | Network
  | Decode
  | Receive
  | Api
deriving DecidableEq

/-- Modelled from the spec: the Client configuration type is not under
src/ (only requester.rs is).  Per the spec the configuration surface is
host, language and an optional api key; the compile-time AUTHENTICATED
client flag is true exactly when a bearer token was configured, so the
model derives the flag from apiKey.isSome. -/
structure ClientM where
  host : String
  language : Lang
  apiKey : Option String
deriving DecidableEq

/-- CachedRequest from the source: a client handle plus the caller
configured cache duration override (seconds; the source uses a chrono
Duration). -/
structure CReq where
  client : ClientM
  cacheDur : Int
deriving DecidableEq

/-- Requester::cached from the source: overwrites the cache duration. -/
def cached (r : CReq) (d : Int) : CReq :=
  { client := r.client, cacheDur := d }

/-- Requester::forced from the source: returns a FORCE=true request with
cache_duration set to Duration::zero(). -/
def forced (r : CReq) : CReq :=
  { client := r.client, cacheDur := 0 }

/-- Response model: headers plus the already-decoded body (decoding is an
abstracted external capability per the spec scope). -/
structure RespM (B : Type) where
  headers : List (String × String)
  body : B
deriving DecidableEq

/-- get_header from the source: find the header by name and parse its
value; None when absent or unparseable.  The FromStr parse is supplied as
an argument (Int parsing for cache-control, Nat parsing for
x-result-total). -/
def get_header (parse : String → Option α) (resp : RespM B) (name : String) :
    Option α :=
  (resp.headers.find? (fun x => decide (x.1 = name))).bind (fun p => parse p.2)

/-- get_expire_from_header from the source: the cache-control header parsed
in its entirety as an integer number of seconds, defaulting to 300. -/
def get_expire_from_header (resp : RespM B) : Int :=
  (get_header String.toInt? resp "cache-control").getD 300

/-- get_cache_expiry from the source: the configured duration when it is
non-zero, otherwise the header-derived duration, added to the current
time (modelled in seconds). -/
def get_cache_expiry (dur : Int) (now : Int) (resp : RespM B) : Int :=
  now + (if dur ≠ 0 then dur else get_expire_from_header resp)

/-- Built request model: the final uri string and the header list. -/
structure ReqM where
  uri : String
  headers : List (String × String)
deriving DecidableEq

/-- Splitting a uri at the first question mark, mirroring hyper's
PathAndQuery: the part before the first question mark (the scheme and
authority are absorbed into it, since build_request reassembles the parts
around the path unchanged) and the query part without the question mark,
when present. -/
def splitQuery : List Char → List Char × Option (List Char)
  | [] => ([], none)
  | c :: cs =>
    if c = '?' then ([], some cs)
    else
      let r := splitQuery cs
      (c :: r.1, r.2)

/-- build_request from the source.  Steps, in source order: fail with
NotAuthenticated when the endpoint is authenticated but the client flag is
false (the flag is apiKey.isSome in the model); attach the
X-Schema-Version header; attach the Authorization bearer header for
authenticated endpoints (the source unwraps the api key, which the guard
makes safe); assemble the query arguments (lang iff LOCALE, then the
caller extras) and splice them into the uri.  Note the source appends
existing-query text to the path without restoring the question mark
separator: the new path_and_query is path ++ oldQuery ++ amp ++ args. -/
def build_request (T : EndpointD) (c : ClientM) (url : String)
    (extra : Option String) : Except Err ReqM :=
  if T.AUTHENTICATED ∧ c.apiKey.isNone then .error .NotAuthenticated
  else
    let hs := [("X-Schema-Version", T.VERSION)]
    let hs := if T.AUTHENTICATED then
        hs ++ [("Authorization", "Bearer " ++ c.apiKey.getD "")]
      else hs
    let args : List String :=
      (if T.LOCALE then ["lang=" ++ c.language.asStr] else []) ++ extra.toList
    if args.isEmpty then .ok ⟨url, hs⟩
    else
      let pq := splitQuery url.toList
      let joined := String.intercalate "&" args
      let tailPart :=
        match pq.2 with
        | some q0 => String.mk q0 ++ "&" ++ joined
        | none => "?" ++ joined
      .ok ⟨String.mk pq.1 ++ tailPart, hs⟩

/-- Success payload of build_request, for stating which request a
successful run issues. -/
def buildReqU (T : EndpointD) (c : ClientM) (url : String)
    (extra : Option String) : ReqM :=
  let hs := [("X-Schema-Version", T.VERSION)]
  let hs := if T.AUTHENTICATED then
      hs ++ [("Authorization", "Bearer " ++ c.apiKey.getD "")]
    else hs
  let args : List String :=
    (if T.LOCALE then ["lang=" ++ c.language.asStr] else []) ++ extra.toList
  if args.isEmpty then ⟨url, hs⟩
  else
    let pq := splitQuery url.toList
    let joined := String.intercalate "&" args
    let tailPart :=
      match pq.2 with
      | some q0 => String.mk q0 ++ "&" ++ joined
      | none => "?" ++ joined
    ⟨String.mk pq.1 ++ tailPart, hs⟩

theorem build_request_ok (T : EndpointD) (c : ClientM) (url : String)
    (extra : Option String) (h : T.AUTHENTICATED = false) :
    build_request T c url extra = .ok (buildReqU T c url extra) := by
  simp only [build_request, buildReqU, h]
  simp only [Bool.false_eq_true, false_and, if_false, List.isEmpty_iff]
  split <;> split <;> rfl

/-- Composite cache / inflight key: TypeId tag of the stored value type, a
hash of the id (the model uses the id itself, an injective hash), and the
language iff the endpoint is locale-sensitive.  The unit key of fixed
endpoints and id lists is modelled by id hash 0. -/
structure CKey where
  ty : Nat
  idh : Nat
  lang : Option Lang
deriving DecidableEq

/-- Modelled from the spec: cache::hash composes the key from the stored
value type tag, the id hash and the optional language (the cache module is
not under src/). -/
def cacheKey (ty idh : Nat) (locale : Bool) (lang : Lang) : CKey :=
  ⟨ty, idh, if locale then some lang else none⟩

/-- Cache store: key to (value, absolute expiry in seconds). -/
abbrev CacheM (V : Type) := List (CKey × V × Int)

/-- Modelled from the spec: Cache::get — the stored value when the key is
present and not expired; entries with expires_at ≤ now are treated as
absent (the cache backend is not under src/). -/
def cacheGet (c : CacheM V) (k : CKey) (now : Int) : Option V :=
  match c.find? (fun e => decide (e.1 = k)) with
  | some e => if now < e.2.2 then some e.2.1 else none
  | none => none

/-- Modelled from the spec: Cache::insert — upsert, replacing any prior
entry under the same key. -/
def cacheInsert (c : CacheM V) (k : CKey) (v : V) (exp : Int) : CacheM V :=
  (k, v, exp) :: c.filter (fun e => decide (e.1 ≠ k))

/-- State threaded through the sequential operation models: the cache, a
clock, the log of requests handed to the transport, the number of cache
lookups performed, and the log of values broadcast on inflight
channels. -/
structure St (V : Type) where
  cache : CacheM V
  now : Int
  calls : List ReqM
  cacheReads : Nat
  sends : List V
deriving DecidableEq

/-- check_cache from the source: when FORCE is false, lock the cache and
look the key up (counted as a cache read); when FORCE is true the cache is
not touched at all. -/
def check_cache (F : Bool) (st : St V) (k : CKey) : Option V × St V :=
  if F then (none, st)
  else (cacheGet st.cache k st.now, { st with cacheReads := st.cacheReads + 1 })

/-- Cache key used by single / many for an item endpoint: the value type
tag, the id, and the language iff LOCALE. -/
def singleKey (T : EndpointD) (c : ClientM) (idh : Nat) : CKey :=
  cacheKey T.ty idh T.LOCALE c.language

/-- Modelled from the spec: EndpointWithId::format_url lives in the model
crate, not under src/; the url of a single-item request is the host, the
endpoint URL suffix and the id. -/
def format_url (T : EndpointD) (host : String) (idh : Nat) : String :=
  host ++ "/" ++ T.URL ++ "/" ++ toString idh

/-- Requester::single from the source, sequentialized: the inflight map is
empty at entry, so the triage loop claims the producer slot on its first
iteration.  Steps in source order: try_get (check_cache); check_inflight
claim; build_request (errors propagate before any transport call); the
transport call (the oracle env, an error becomes Err.Network); then
cache_response — derive the expiry, decode (abstracted: the response body
is the decoded value), insert into the cache — and the broadcast send,
whose no-subscriber error is ignored. -/
def single (T : EndpointD) (r : CReq) (F : Bool) (idh : Nat)
    (env : Except Unit (RespM V)) (st : St V) : Except Err V × St V :=
  let k := singleKey T r.client idh
  let c1 := check_cache F st k
  match c1.1 with
  | some v => (.ok v, c1.2)
  | none =>
    let st := c1.2
    match build_request T r.client (format_url T r.client.host idh) none with
    | .error e => (.error e, st)
    | .ok req =>
      let st := { st with calls := st.calls ++ [req] }
      match env with
      | .error _ => (.error .Network, st)
      | .ok resp =>
        let exp := get_cache_expiry r.cacheDur st.now resp
        let v := resp.body
        let st := { st with cache := cacheInsert st.cache k v exp }
        let st := { st with sends := st.sends ++ [v] }
        (.ok v, st)

/-- get_or_ids from the source (the shared body of get and ids),
sequentialized like single: the cache key is the unit key (id hash 0) with
the tag tyK of the stored value type (T itself for get, the id-list type
for ids), the url is host/URL, and the rest mirrors single. -/
def get_or_ids (T : EndpointD) (tyK : Nat) (r : CReq) (F : Bool)
    (env : Except Unit (RespM V)) (st : St V) : Except Err V × St V :=
  let k := cacheKey tyK 0 T.LOCALE r.client.language
  let c1 := check_cache F st k
  match c1.1 with
  | some v => (.ok v, c1.2)
  | none =>
    let st := c1.2
    match build_request T r.client (r.client.host ++ "/" ++ T.URL) none with
    | .error e => (.error e, st)
    | .ok req =>
      let st := { st with calls := st.calls ++ [req] }
      match env with
      | .error _ => (.error .Network, st)
      | .ok resp =>
        let exp := get_cache_expiry r.cacheDur st.now resp
        let v := resp.body
        let st := { st with cache := cacheInsert st.cache k v exp }
        let st := { st with sends := st.sends ++ [v] }
        (.ok v, st)

/-- Fuel-driven chunking: each step emits the next 200-element chunk of
the remainder.  The fuel only bounds the recursion depth (one unit per
chunk); chunksOf200 supplies the list length, which always suffices, so
the pair implements slice::chunks(200) exactly. -/
def chunksFuel : Nat → List α → List (List α)
  | _, [] => []
  | 0, _ :: _ => []
  | fuel + 1, x :: xs => ((x :: xs).take 200) :: chunksFuel fuel ((x :: xs).drop 200)

/-- Chunks of at most 200 elements, the last one possibly smaller,
mirroring slice::chunks(200) as used by join_ids. -/
def chunksOf200 (l : List α) : List (List α) := chunksFuel l.length l

/-- join_ids from the source: the ids chunked 200 per batch, each batch
concatenated with comma separators (the first id written bare, every
further id preceded by a comma, hence no trailing comma). -/
def join_ids (ids : List Nat) : List String :=
  (chunksOf200 ids).map (fun ch => String.intercalate "," (ch.map toString))

/-- One id of the extract_many_from_cache walk: a cache hit is pushed onto
the result, a miss is retained. -/
def extractStep (T : EndpointD) (c : ClientM) (st : St V)
    (acc : List Nat × List V) (i : Nat) : List Nat × List V :=
  match cacheGet st.cache (singleKey T c i) st.now with
  | some v => (acc.1, acc.2 ++ [v])
  | none => (acc.1 ++ [i], acc.2)

/-- extract_many_from_cache from the source: walk the ids under one cache
lock; cache hits are pushed onto the result, misses are retained.  Returns
(remaining ids, cache-hit values), both in input order. -/
def extract_many_from_cache (T : EndpointD) (c : ClientM) (ids : List Nat)
    (st : St V) : List Nat × List V :=
  ids.foldl (extractStep T c st) ([], [])

/-- Outcome of the per-id inflight triage loop in many, as determined by
the concurrent environment: subscribe to an existing inflight entry (rx
pushed), claim the producer slot (tx recorded, id retained), or a cache
hit on the re-check after a failed weak upgrade (value pushed to the
result). -/
inductive BOut (V : Type) where
  | joins
  | claims
  | lateHit (v : V)

/-- Phase B of many from the source: each remaining id runs the triage
loop; returns (joined ids, claimed ids, late cache-hit values), each in
input order. -/
def triage (tri : Nat → BOut V) : List Nat → List Nat × List Nat × List V
  | [] => ([], [], [])
  | i :: rest =>
    let r := triage tri rest
    match tri i with
    | .joins => (i :: r.1, r.2.1, r.2.2)
    | .claims => (r.1, i :: r.2.1, r.2.2)
    | .lateHit v => (r.1, r.2.1, v :: r.2.2)

/-- Broadcast step of the chunk handler in many: for each decoded item,
remove its producer guard from the guard map (txs) and send the item on
it.  The source panics through expect when the removal finds nothing
(an entry the api returned but nobody claimed); that is the none
result. -/
def sendItems : List Nat → List (Nat × V) → Option (List Nat × List V)
  | txs, [] => some (txs, [])
  | txs, (i, v) :: rest =>
    if i ∈ txs then
      (sendItems (txs.erase i) rest).map (fun p => (p.1, v :: p.2))
    else none

/-- Result of the chunk-dispatch phase: the final state, accumulated
result and remaining guard map on success; an error; or the expect
panic. -/
inductive Run (V : Type) where
  | ok (st : St V) (res : List V) (txs : List Nat)
  | fail (e : Err)
  | panicked
deriving DecidableEq

/-- Phase C of many from the source, sequentialized (the source dispatches
the chunk futures through try_join_all; the model runs them in order).
Each chunk: build_request with query ids=<joined chunk>; the transport
call; cache_response_many (one expiry for the chunk, every decoded item
inserted into the cache under its own id and appended to the shared
result); then the guard removal and broadcast per item. -/
def processChunks (T : EndpointD) (c : ClientM) (cdur : Int) (url : String)
    (chunkEnv : Nat → Except Unit (RespM (List (Nat × V)))) :
    Nat → List String → St V → List V → List Nat → Run V
  | _, [], st, res, txs => .ok st res txs
  | n, q :: qs, st, res, txs =>
    match build_request T c url (some ("ids=" ++ q)) with
    | .error e => .fail e
    | .ok req =>
      let st := { st with calls := st.calls ++ [req] }
      match chunkEnv n with
      | .error _ => .fail .Network
      | .ok resp =>
        let exp := get_cache_expiry cdur st.now resp
        let items := resp.body
        let cch := items.foldl
          (fun m it => cacheInsert m (singleKey T c it.1) it.2 exp) st.cache
        let st := { st with cache := cch }
        let res := res ++ items.map (fun it => it.2)
        match sendItems txs items with
        | none => .panicked
        | some p =>
          let st := { st with sends := st.sends ++ p.2 }
          processChunks T c cdur url chunkEnv (n + 1) qs st res p.1

/-- Phase D of many from the source: awaiting each recorded receiver in
order; a receive error (producer dropped without publishing) propagates
as Err.Receive.  The k-th receiver's outcome is supplied by the
environment. -/
def recvAll (recvEnv : Nat → Except Unit V) : Nat → Nat → Option (List V)
  | _, 0 => some []
  | k, n + 1 =>
    match recvEnv k with
    | .error _ => none
    | .ok v => (recvAll recvEnv (k + 1) n).map (fun vs => v :: vs)

/-- Overall result of many. -/
inductive ManyRes (V : Type) where
  | ok (xs : List V) (st : St V)
  | fail (e : Err)
  | panicked
deriving DecidableEq

/-- Requester::many from the source: phase A (cache extraction, skipped
when FORCE, early return when nothing remains), phase B (inflight triage,
outcomes supplied by the environment), phase C (chunked dispatch over
join_ids of the claimed ids) and phase D (awaiting the joined
receivers). -/
def many (T : EndpointD) (r : CReq) (F : Bool) (ids : List Nat)
    (tri : Nat → BOut V) (chunkEnv : Nat → Except Unit (RespM (List (Nat × V))))
    (recvEnv : Nat → Except Unit V) (st : St V) : ManyRes V :=
  let s1 := if F then (ids, ([] : List V))
    else extract_many_from_cache T r.client ids st
  if ¬F ∧ s1.1 = [] then .ok s1.2 st
  else
    let t := triage tri s1.1
    let result1 := s1.2 ++ t.2.2
    let url := r.client.host ++ "/" ++ T.URL
    let chunks := join_ids t.2.1
    match processChunks T r.client r.cacheDur url chunkEnv 0 chunks st result1 t.2.1 with
    | .panicked => .panicked
    | .fail e => .fail e
    | .ok st2 res2 _ =>
      match recvAll recvEnv 0 t.1.length with
      | none => .fail .Receive
      | some vs => .ok (res2 ++ vs) st2

/-- Requester::page from the source: one request with query
page=<p>&page_size=<s>; the x-result-total header read as a usize with
default 0; cache_response_many for the decoded items; returns the
count. -/
def page (T : EndpointD) (r : CReq) (pg : Nat) (pageSize : Nat)
    (env : Except Unit (RespM (List (Nat × V)))) (st : St V) (res : List V) :
    Except Err (Nat × St V × List V) :=
  let url := r.client.host ++ "/" ++ T.URL
  let queries := "page=" ++ toString pg ++ "&page_size=" ++ toString pageSize
  match build_request T r.client url (some queries) with
  | .error e => .error e
  | .ok req =>
    let st := { st with calls := st.calls ++ [req] }
    match env with
    | .error _ => .error .Network
    | .ok resp =>
      let count := (get_header String.toNat? resp "x-result-total").getD 0
      let exp := get_cache_expiry r.cacheDur st.now resp
      let cch := resp.body.foldl
        (fun m it => cacheInsert m (singleKey T r.client it.1) it.2 exp) st.cache
      let st := { st with cache := cch }
      .ok (count, st, res ++ resp.body.map (fun it => it.2))

/-- Page loop of get_all_by_paging: n further pages of size 200 at indices
k+1, k+2, ... -/
def pageLoop (T : EndpointD) (r : CReq)
    (env : Nat → Except Unit (RespM (List (Nat × V)))) :
    Nat → Nat → St V → List V → Except Err (St V × List V)
  | _, 0, st, res => .ok (st, res)
  | k, n + 1, st, res =>
    match page T r (k + 1) 200 (env (k + 1)) st res with
    | .error e => .error e
    | .ok out => pageLoop T r env (k + 1) n out.2.1 out.2.2

/-- get_all_by_paging from the source: UnsupportedEndpointQuery unless
PAGING; the first page at index 0 with size 200 yields max_items from the
x-result-total header; remaining = max_items saturating-sub 200; the page
count is the ceiling of remaining / 200 (the source computes it through
f64 ceil, exact for any count a response can carry); then the loop fetches
pages 1..pages sequentially. -/
def get_all_by_paging (T : EndpointD) (r : CReq)
    (env : Nat → Except Unit (RespM (List (Nat × V)))) (st : St V) :
    Except Err (St V × List V) :=
  if ¬T.PAGING then .error .UnsupportedEndpointQuery
  else
    match page T r 0 200 (env 0) st [] with
    | .error e => .error e
    | .ok out =>
      let remaining := out.1 - 200
      let pages := (remaining + 199) / 200
      pageLoop T r env 0 pages out.2.1 out.2.2

/-
Small-step interleaving model of concurrent single() callers for one key
on an unauthenticated endpoint.  Each constructor is one atomic stretch of
the source between suspension points:

  * cacheCheck — try_get (one critical section on the cache mutex); under
    FORCE the lookup short-circuits to None without reading.
  * inflightCheck — one critical section on the inflight map mutex: a
    vacant slot is claimed (a fresh broadcast channel generation is
    installed and the caller becomes producer); an occupied slot with a
    live weak handle is upgraded, after which the caller must await the
    sender mutex before it can subscribe (check_inflight holds the
    upgraded Arc across that await: `let r = r.upgrade()?; let r =
    r.lock().await; Either::Left(r.subscribe())`) — that await is the
    separate waitSub step below; an occupied slot whose weak handle is
    dead yields None and the caller re-checks the cache and loops.
  * waitSub — acquiring the sender mutex and subscribing.  A tokio
    broadcast receiver only observes values sent after subscription, so
    the received slot starts empty.
  * waitRecv — rx.recv(): a delivered value completes the caller; a closed
    channel (producer guard dropped, no pending upgraded Arc left) yields
    Err.Receive; otherwise the step blocks (modelled as a stutter).
  * transportStep — the producer's network call; on failure the error
    propagates and the guard drops.
  * insertStep — cache_response: the cache insert (the expiry bookkeeping
    is covered by the sequential model; here the cache holds the value).
  * sendStep — the producer locks the sender, sends to the current
    subscribers, returns, and its guard drops: in the source this stretch
    (`let _ = tx.lock().await.send(result.clone()); Ok(result)`) contains
    no further suspension point, so it is one atomic step.

A schedule entry of some i steps task i; a none entry runs a pending
guard-drop removal that the SenderGuard destructor spawned
(`tokio::spawn(... remove(&hash))`), clearing the map slot.
-/

instance {ε α : Type} [DecidableEq ε] [DecidableEq α] :
    DecidableEq (Except ε α) := fun a b =>
  match a, b with
  | .error x, .error y =>
    if h : x = y then .isTrue (by rw [h]) else .isFalse (by simp [h])
  | .error _, .ok _ => .isFalse (by simp)
  | .ok _, .error _ => .isFalse (by simp)
  | .ok x, .ok y =>
    if h : x = y then .isTrue (by rw [h]) else .isFalse (by simp [h])

/-- Program counter of one single() caller in the interleaving model. -/
inductive TPC (V : Type) where
  | cacheCheck
  | inflightCheck
  | waitSub (gen : Nat)
  | waitRecv (gen : Nat) (received : Option V)
  | transportStep (gen : Nat)
  | insertStep (gen : Nat) (v : V)
  | sendStep (gen : Nat) (v : V)
  | done (r : Except Err V)
deriving DecidableEq

/-- Broadcast channel generation: the value sent (if any) and whether the
producer guard is still alive (the weak handle upgrades iff it is, or a
subscriber still holds an upgraded Arc). -/
structure Chan (V : Type) where
  sent : Option V
  guardLive : Bool
deriving DecidableEq

/-- Global state of the interleaving model: the cache slot for the one
key, the inflight map slot (the channel generation it points at, if any),
all channel generations, the task list and the transport call counter. -/
structure Sys (V : Type) where
  cache : Option V
  slot : Option Nat
  chans : List (Chan V)
  tasks : List (TPC V)
  calls : Nat
deriving DecidableEq

def chanGet (s : Sys V) (g : Nat) : Chan V :=
  (s.chans.get? g).getD ⟨none, false⟩

def setChan (s : Sys V) (g : Nat) (ch : Chan V) : Sys V :=
  { s with chans := s.chans.set g ch }

def setTask (s : Sys V) (i : Nat) (pc : TPC V) : Sys V :=
  { s with tasks := s.tasks.set i pc }

/-- A channel generation is closed once every strong reference to its
sender is gone: the producer guard has dropped and no joiner still holds
an upgraded Arc on its way to subscribing. -/
def chanClosed (s : Sys V) (g : Nat) : Bool :=
  !(chanGet s g).guardLive &&
    s.tasks.all (fun t =>
      match t with
      | .waitSub g2 => decide (g2 ≠ g)
      | _ => true)

/-- Delivery of a broadcast value: every subscriber of generation g that
is already past its subscribe step receives it. -/
def deliver (g : Nat) (v : V) (t : TPC V) : TPC V :=
  match t with
  | .waitRecv g2 none => if g2 = g then .waitRecv g2 (some v) else t
  | _ => t

/-- One step of task i (F is the task's FORCE flag, shared here: the model
runs non-forced callers; tr gives the transport result of the n-th
call). -/
def taskStep (tr : Nat → Except Unit V) (s : Sys V) (i : Nat) : Sys V :=
  match s.tasks.get? i with
  | none => s
  | some pc =>
    match pc with
    | .cacheCheck =>
      match s.cache with
      | some v => setTask s i (.done (.ok v))
      | none => setTask s i .inflightCheck
    | .inflightCheck =>
      match s.slot with
      | none =>
        let g := s.chans.length
        { s with chans := s.chans ++ [⟨none, true⟩], slot := some g,
                 tasks := s.tasks.set i (.transportStep g) }
      | some g =>
        if (chanGet s g).guardLive then setTask s i (.waitSub g)
        else setTask s i .cacheCheck
    | .waitSub g => setTask s i (.waitRecv g none)
    | .waitRecv g r =>
      match r with
      | some v => setTask s i (.done (.ok v))
      | none =>
        if chanClosed s g then setTask s i (.done (.error .Receive)) else s
    | .transportStep g =>
      match tr s.calls with
      | .ok v =>
        { s with calls := s.calls + 1, tasks := s.tasks.set i (.insertStep g v) }
      | .error _ =>
        let s := setChan s g { chanGet s g with guardLive := false }
        { s with calls := s.calls + 1,
                 tasks := s.tasks.set i (.done (.error .Network)) }
    | .insertStep g v => setTask { s with cache := some v } i (.sendStep g v)
    | .sendStep g v =>
      let s := setChan s g { sent := some v, guardLive := false }
      { s with tasks := (s.tasks.set i (.done (.ok v))).map (deliver g v) }
    | .done _ => s

/-- One scheduled event: a task step, or (none) a spawned inflight-map
removal running (the source removes whatever the slot currently holds). -/
def sysStep (tr : Nat → Except Unit V) (s : Sys V) : Option Nat → Sys V
  | some i => taskStep tr s i
  | none => { s with slot := none }

/-- Running a schedule. -/
def runSys (tr : Nat → Except Unit V) (s : Sys V) : List (Option Nat) → Sys V
  | [] => s
  | ev :: rest => runSys tr (sysStep tr s ev) rest

/-- Initial state for n concurrent single() callers on an empty cache. -/
def initSys (n : Nat) : Sys V :=
  ⟨none, none, [], List.replicate n .cacheCheck, 0⟩

/-- C4: the derived cache expiry is now + override when the configured
override is positive, and otherwise now + s where s is the cache-control
header parsed in its entirety as an integer, defaulting to 300 when the
header is absent or unparseable.  The override is the configured
cache-duration, a non-negative duration per the configuration surface
(the source tests it for non-zero, which coincides with positive on that
domain). -/
theorem c4_cache_expiry (dur now : Int) (resp : RespM B) (h : 0 ≤ dur) :
    get_cache_expiry dur now resp =
      now + (if 0 < dur then dur
        else (get_header String.toInt? resp "cache-control").getD 300) := by
  unfold get_cache_expiry get_expire_from_header
  by_cases hd : dur = 0
  · simp [hd]
  · have hpos : 0 < dur := lt_of_le_of_ne h (Ne.symm hd)
    simp [hd, hpos]

/-- Witness for C4 at a concrete response: override 0 falls back to the
parsed cache-control header, here 120 seconds on top of now = 5. -/
theorem c4_cache_expiry_witness :
    (0 : Int) ≤ 0 ∧
    get_cache_expiry 0 5 (⟨[("cache-control", "120")], 0⟩ : RespM Nat) =
      5 + (if (0 : Int) < 0 then 0
        else (get_header String.toInt?
          (⟨[("cache-control", "120")], 0⟩ : RespM Nat) "cache-control").getD 300) :=
  ⟨le_refl 0, c4_cache_expiry 0 5 ⟨[("cache-control", "120")], 0⟩ (le_refl 0)⟩

/-- C9: forced() always sets the cache-duration override to zero — also
when obtained from a client configured through cached(d) — so the expiry
of every forced request comes from the response's cache-control header
(default 300), never from the configured duration. -/
theorem c9_forced_zero_duration (r : CReq) (d now : Int) (resp : RespM B) :
    (forced (cached r d)).cacheDur = 0 ∧
    (∀ r2 : CReq, get_cache_expiry (forced r2).cacheDur now resp =
      now + get_expire_from_header resp) := by
  refine ⟨rfl, fun r2 => ?_⟩
  simp [forced, get_cache_expiry]

/-- C2: with an unexpired cache entry for the key (type tag, id, and
language iff LOCALE), a non-forced single / get / ids request returns the
cached value and performs zero transport calls. -/
theorem c2_cache_hit_no_network
    (T : EndpointD) (tyK : Nat) (r : CReq) (idh : Nat)
    (env env2 : Except Unit (RespM V)) (st : St V) (v w : V)
    (h1 : cacheGet st.cache (singleKey T r.client idh) st.now = some v)
    (h2 : cacheGet st.cache (cacheKey tyK 0 T.LOCALE r.client.language) st.now
      = some w) :
    ((single T r false idh env st).1 = .ok v ∧
      (single T r false idh env st).2.calls = st.calls) ∧
    ((get_or_ids T tyK r false env2 st).1 = .ok w ∧
      (get_or_ids T tyK r false env2 st).2.calls = st.calls) := by
  unfold single get_or_ids check_cache
  simp [h1, h2]

/-- Witness for C2: a concrete cache pre-populated for item id 1 (value 7,
expiry 10) and for the unit key of tag 4 (value 8); both lookups hit and
the transport log stays empty. -/
theorem c2_cache_hit_no_network_witness :
    (cacheGet [(⟨3, 1, none⟩, 7, 10), (⟨4, 0, none⟩, 8, 10)]
        (singleKey ⟨"u", "1", false, false, false, false, 3⟩ ⟨"h", .en, none⟩ 1) 0
      = some 7) ∧
    (((single ⟨"u", "1", false, false, false, false, 3⟩ ⟨⟨"h", .en, none⟩, 0⟩
          false 1 (.error ())
          ⟨[(⟨3, 1, none⟩, 7, 10), (⟨4, 0, none⟩, 8, 10)], 0, [], 0, []⟩).1 = .ok 7 ∧
        (single ⟨"u", "1", false, false, false, false, 3⟩ ⟨⟨"h", .en, none⟩, 0⟩
          false 1 (.error ())
          ⟨[(⟨3, 1, none⟩, 7, 10), (⟨4, 0, none⟩, 8, 10)], 0, [], 0, []⟩).2.calls = []) ∧
      ((get_or_ids ⟨"u", "1", false, false, false, false, 3⟩ 4 ⟨⟨"h", .en, none⟩, 0⟩
          false (.error ())
          ⟨[(⟨3, 1, none⟩, 7, 10), (⟨4, 0, none⟩, 8, 10)], 0, [], 0, []⟩).1 = .ok 8 ∧
        (get_or_ids ⟨"u", "1", false, false, false, false, 3⟩ 4 ⟨⟨"h", .en, none⟩, 0⟩
          false (.error ())
          ⟨[(⟨3, 1, none⟩, 7, 10), (⟨4, 0, none⟩, 8, 10)], 0, [], 0, []⟩).2.calls = [])) :=
  ⟨by decide,
    c2_cache_hit_no_network ⟨"u", "1", false, false, false, false, 3⟩ 4
      ⟨⟨"h", .en, none⟩, 0⟩ 1 (.error ()) (.error ())
      ⟨[(⟨3, 1, none⟩, 7, 10), (⟨4, 0, none⟩, 8, 10)], 0, [], 0, []⟩ 7 8
      (by decide) (by decide)⟩

/-- C3: under FORCE the cache is never read (check_cache short-circuits to
None at every read site, covering the entry check and the triage loop
re-check), a transport call is performed regardless of any unexpired cache
entry, and the decoded result is inserted into the cache — replacing any
prior entry under the key, as the final conjunct shows — and broadcast on
the inflight channel.  The run modelled is the producer path (no
concurrent in-flight entry for the key at claim time). -/
theorem c3_force_mode
    (T : EndpointD) (r : CReq) (idh : Nat) (resp : RespM V) (st : St V) (k : CKey)
    (hA : T.AUTHENTICATED = false) :
    check_cache true st k = (none, st) ∧
    single T r true idh (.ok resp) st =
      (.ok resp.body,
        { st with
            calls := st.calls ++
              [buildReqU T r.client (format_url T r.client.host idh) none],
            cache := cacheInsert st.cache (singleKey T r.client idh) resp.body
              (get_cache_expiry r.cacheDur st.now resp),
            sends := st.sends ++ [resp.body] }) ∧
    (∀ (cch : CacheM V) (k2 : CKey) (v : V) (e now2 : Int),
      cacheGet (cacheInsert cch k2 v e) k2 now2 =
        if now2 < e then some v else none) := by
  refine ⟨rfl, ?_, ?_⟩
  · unfold single check_cache
    rw [build_request_ok T r.client _ none hA]
    rfl
  · intro cch k2 v e now2
    simp [cacheGet, cacheInsert]

/-- Witness for C3: a forced single on a cache already holding an
unexpired entry for the key still issues one transport call, overwrites
the entry and broadcasts the fresh value. -/
theorem c3_force_mode_witness :
    check_cache true
        (⟨[(⟨3, 1, none⟩, 7, 10)], 0, [], 0, []⟩ : St Nat) ⟨3, 1, none⟩ =
      (none, ⟨[(⟨3, 1, none⟩, 7, 10)], 0, [], 0, []⟩) ∧
    single ⟨"u", "1", false, false, false, false, 3⟩ ⟨⟨"h", .en, none⟩, 0⟩
        true 1 (.ok ⟨[], 9⟩)
        (⟨[(⟨3, 1, none⟩, 7, 10)], 0, [], 0, []⟩ : St Nat) =
      (.ok 9,
        { (⟨[(⟨3, 1, none⟩, 7, 10)], 0, [], 0, []⟩ : St Nat) with
            calls := [] ++
              [buildReqU ⟨"u", "1", false, false, false, false, 3⟩ ⟨"h", .en, none⟩
                (format_url ⟨"u", "1", false, false, false, false, 3⟩ "h" 1) none],
            cache := cacheInsert [(⟨3, 1, none⟩, 7, 10)]
              (singleKey ⟨"u", "1", false, false, false, false, 3⟩ ⟨"h", .en, none⟩ 1) 9
              (get_cache_expiry 0 0 ⟨[], 9⟩),
            sends := [] ++ [9] }) ∧
    (∀ (cch : CacheM Nat) (k2 : CKey) (v : Nat) (e now2 : Int),
      cacheGet (cacheInsert cch k2 v e) k2 now2 =
        if now2 < e then some v else none) :=
  c3_force_mode ⟨"u", "1", false, false, false, false, 3⟩ ⟨⟨"h", .en, none⟩, 0⟩
    1 ⟨[], 9⟩ ⟨[(⟨3, 1, none⟩, 7, 10)], 0, [], 0, []⟩ ⟨3, 1, none⟩ rfl

/-- C5: an authenticated endpoint requested through a client with no
bearer token fails with NotAuthenticated before any transport call; with a
token configured the built request carries the Authorization bearer header
and the X-Schema-Version header. -/
theorem c5_auth_gate
    (T : EndpointD) (r : CReq) (idh : Nat) (key : String)
    (env : Except Unit (RespM V)) (st : St V) (url : String) (extra : Option String)
    (hA : T.AUTHENTICATED = true) :
    (r.client.apiKey = none →
      cacheGet st.cache (singleKey T r.client idh) st.now = none →
      (single T r false idh env st).1 = .error .NotAuthenticated ∧
      (single T r false idh env st).2.calls = st.calls) ∧
    (r.client.apiKey = some key →
      ∃ req, build_request T r.client url extra = .ok req ∧
        ("Authorization", "Bearer " ++ key) ∈ req.headers ∧
        ("X-Schema-Version", T.VERSION) ∈ req.headers) := by
  constructor
  · intro hkey hmiss
    unfold single check_cache
    simp only [Bool.false_eq_true, if_false, hmiss]
    have hguard : T.AUTHENTICATED ∧ r.client.apiKey.isNone = true := by
      simp [hA, hkey]
    simp [build_request, hguard]
  · intro hkey
    simp only [build_request, hkey, hA, Option.isNone_some, Bool.false_eq_true,
      and_false, if_false, Option.getD_some, if_true]
    split <;> split <;> exact ⟨_, rfl, by simp, by simp⟩

/-- Witness for C5: a concrete authenticated endpoint — without a key the
request fails with NotAuthenticated and the call log stays empty; with key
k the built request carries both headers. -/
theorem c5_auth_gate_witness :
    ((single ⟨"u", "1", true, false, false, false, 3⟩ ⟨⟨"h", .en, none⟩, 0⟩
        false 1 (.error ()) (⟨[], 0, [], 0, []⟩ : St Nat)).1 =
          .error .NotAuthenticated ∧
      (single ⟨"u", "1", true, false, false, false, 3⟩ ⟨⟨"h", .en, none⟩, 0⟩
        false 1 (.error ()) (⟨[], 0, [], 0, []⟩ : St Nat)).2.calls = []) ∧
    (∃ req, build_request ⟨"u", "1", true, false, false, false, 3⟩
        ⟨"h", .en, some "k"⟩ "h/u" none = .ok req ∧
      ("Authorization", "Bearer " ++ "k") ∈ req.headers ∧
      ("X-Schema-Version", "1") ∈ req.headers) :=
  ⟨(c5_auth_gate ⟨"u", "1", true, false, false, false, 3⟩ ⟨⟨"h", .en, none⟩, 0⟩
      1 "k" (Except.error () : Except Unit (RespM Nat))
      (⟨[], 0, [], 0, []⟩ : St Nat) "h/u" none rfl).1 rfl (by decide),
    (c5_auth_gate ⟨"u", "1", true, false, false, false, 3⟩ ⟨⟨"h", .en, some "k"⟩, 0⟩
      1 "k" (Except.error () : Except Unit (RespM Nat))
      (⟨[], 0, [], 0, []⟩ : St Nat) "h/u" none rfl).2 rfl⟩

theorem splitQuery_no_q (p : List Char) (hp : '?' ∉ p) :
    splitQuery p = (p, none) := by
  induction p with
  | nil => rfl
  | cons c cs ih =>
    have hc : ¬c = '?' := fun h => hp (by simp [h])
    have hcs : '?' ∉ cs := fun h => hp (List.mem_cons_of_mem c h)
    simp [splitQuery, hc, ih hcs]

theorem splitQuery_with_q (p q : List Char) (hp : '?' ∉ p) :
    splitQuery (p ++ '?' :: q) = (p, some q) := by
  induction p with
  | nil => simp [splitQuery]
  | cons c cs ih =>
    have hc : ¬c = '?' := fun h => hp (by simp [h])
    have hcs : '?' ∉ cs := fun h => hp (List.mem_cons_of_mem c h)
    simp [splitQuery, hc, ih hcs]

/-- Counterexample for C7: on a url that already carries a query string
the source reassembles the path and the combined query without the
question-mark separator — PathAndQuery::query() returns the query without
its question mark and the code concatenates path ++ oldQuery ++ amp ++
newArgs — so the claimed uri (old query kept behind the question mark, new
parameters appended with an ampersand) differs from the built one. -/
theorem c7_counterexample :
    build_request (⟨"u", "1", false, false, false, false, 3⟩ : EndpointD)
        (⟨"h", .en, none⟩ : ClientM) "h/p?a=1" (some "ids=2") =
      .ok ⟨"h/pa=1&ids=2", [("X-Schema-Version", "1")]⟩ ∧
    "h/pa=1&ids=2" ≠ "h/p?a=1&ids=2" := by
  constructor
  · rfl
  · decide

/-- C7 as amended: the assembled parameter list is lang iff LOCALE
followed by the caller extras, joined with ampersands; with no parameters
the uri is untouched; on a url without a query string the parameters are
appended behind a question mark; on a url that already has a query string
the old query and the new parameters are joined with an ampersand but
spliced onto the path without the question-mark separator. -/
theorem c7_query_assembly (T : EndpointD) (c0 : ClientM) (extra : Option String)
    (p q0 : List Char) (hp : '?' ∉ p) (req req2 : ReqM)
    (h1 : build_request T c0 (String.mk p) extra = .ok req)
    (h2 : build_request T c0 (String.mk (p ++ '?' :: q0)) extra = .ok req2) :
    ((if T.LOCALE then ["lang=" ++ c0.language.asStr] else []) ++ extra.toList = [] →
      req.uri = String.mk p ∧ req2.uri = String.mk (p ++ '?' :: q0)) ∧
    ((if T.LOCALE then ["lang=" ++ c0.language.asStr] else []) ++ extra.toList ≠ [] →
      req.uri = String.mk p ++ ("?" ++ String.intercalate "&"
        ((if T.LOCALE then ["lang=" ++ c0.language.asStr] else []) ++ extra.toList)) ∧
      req2.uri = String.mk p ++ (String.mk q0 ++ "&" ++ String.intercalate "&"
        ((if T.LOCALE then ["lang=" ++ c0.language.asStr] else []) ++ extra.toList))) := by
  unfold build_request at h1 h2
  constructor
  · intro hargs
    by_cases hguard : T.AUTHENTICATED ∧ c0.apiKey.isNone
    · rw [if_pos hguard] at h1
      cases h1
    · rw [if_neg hguard] at h1 h2
      simp only [hargs, List.isEmpty_nil, if_true] at h1 h2
      cases h1
      cases h2
      exact ⟨rfl, rfl⟩
  · intro hargs
    have hne : ((if T.LOCALE then ["lang=" ++ c0.language.asStr] else [])
        ++ extra.toList).isEmpty = false := by
      simpa [List.isEmpty_iff] using hargs
    by_cases hguard : T.AUTHENTICATED ∧ c0.apiKey.isNone
    · rw [if_pos hguard] at h1
      cases h1
    · rw [if_neg hguard] at h1 h2
      simp only [hne, Bool.false_eq_true, if_false] at h1 h2
      have e1 : (String.mk p).toList = p := rfl
      have e2 : (String.mk (p ++ '?' :: q0)).toList = p ++ '?' :: q0 := rfl
      rw [e1, splitQuery_no_q p hp] at h1
      rw [e2, splitQuery_with_q p q0 hp] at h2
      cases h1
      cases h2
      exact ⟨rfl, rfl⟩

/-- Witness for C7 as amended: a locale-free endpoint with extra query
ids=2 on the urls h/p (no query) and h/p?a=1 (existing query). -/
theorem c7_query_assembly_witness :
    (([] : List String) ++ (some "ids=2").toList = [] →
      (⟨"h/p?ids=2", [("X-Schema-Version", "1")]⟩ : ReqM).uri = String.mk ['h', '/', 'p'] ∧
      (⟨"h/pa=1&ids=2", [("X-Schema-Version", "1")]⟩ : ReqM).uri =
        String.mk (['h', '/', 'p'] ++ '?' :: ['a', '=', '1'])) ∧
    (([] : List String) ++ (some "ids=2").toList ≠ [] →
      (⟨"h/p?ids=2", [("X-Schema-Version", "1")]⟩ : ReqM).uri =
        String.mk ['h', '/', 'p'] ++ ("?" ++ String.intercalate "&"
          (([] : List String) ++ (some "ids=2").toList)) ∧
      (⟨"h/pa=1&ids=2", [("X-Schema-Version", "1")]⟩ : ReqM).uri =
        String.mk ['h', '/', 'p'] ++ (String.mk ['a', '=', '1'] ++ "&" ++
          String.intercalate "&" (([] : List String) ++ (some "ids=2").toList))) := by
  have h := c7_query_assembly (⟨"u", "1", false, false, false, false, 3⟩ : EndpointD)
    (⟨"h", .en, none⟩ : ClientM) (some "ids=2") ['h', '/', 'p'] ['a', '=', '1']
    (by decide) ⟨"h/p?ids=2", [("X-Schema-Version", "1")]⟩
    ⟨"h/pa=1&ids=2", [("X-Schema-Version", "1")]⟩ (by decide) (by decide)
  simpa using h

theorem page_ok (T : EndpointD) (r : CReq) (pg pageSize : Nat)
    (resp : RespM (List (Nat × V))) (st : St V) (res : List V)
    (hA : T.AUTHENTICATED = false) :
    ∃ st2, page T r pg pageSize (.ok resp) st res =
      .ok ((get_header String.toNat? resp "x-result-total").getD 0, st2,
        res ++ resp.body.map (fun it => it.2)) ∧
      st2.calls = st.calls ++
        [buildReqU T r.client (r.client.host ++ "/" ++ T.URL)
          (some ("page=" ++ toString pg ++ "&page_size=" ++ toString pageSize))] := by
  simp only [page]
  rw [build_request_ok _ _ _ _ hA]
  exact ⟨_, rfl, rfl⟩

theorem pageLoop_ok (T : EndpointD) (r : CReq)
    (resps : Nat → RespM (List (Nat × V))) (hA : T.AUTHENTICATED = false) :
    ∀ (n k : Nat) (st : St V) (res : List V),
      ∃ st2, pageLoop T r (fun i => .ok (resps i)) k n st res =
        .ok (st2, res ++ ((List.range n).map
          (fun pg => (resps (k + 1 + pg)).body.map (fun it => it.2))).flatten) ∧
        st2.calls = st.calls ++ (List.range n).map (fun pg =>
          buildReqU T r.client (r.client.host ++ "/" ++ T.URL)
            (some ("page=" ++ toString (k + 1 + pg) ++ "&page_size=" ++
              toString 200))) := by
  intro n
  induction n with
  | zero =>
    intro k st res
    refine ⟨st, ?_, by simp⟩
    simp [pageLoop]
  | succ n ih =>
    intro k st res
    obtain ⟨stMid, hpage, hcalls⟩ :=
      page_ok T r (k + 1) 200 (resps (k + 1)) st res hA
    obtain ⟨st2, hloop, hcalls2⟩ :=
      ih (k + 1) stMid (res ++ (resps (k + 1)).body.map (fun it => it.2))
    have hidx : ∀ pg : Nat, k + 1 + 1 + pg = k + 1 + (pg + 1) := fun pg => by omega
    simp only [hidx] at hloop hcalls2
    refine ⟨st2, ?_, ?_⟩
    · simp only [pageLoop, hpage]
      rw [hloop]
      rw [List.range_succ_eq_map, List.map_cons, List.map_map]
      simp [List.append_assoc, Function.comp_def]
    · rw [hcalls2, hcalls, List.append_assoc]
      rw [List.range_succ_eq_map, List.map_cons, List.map_map]
      simp [Function.comp_def]

/-- C8: all_by_paging issues the first request at page index 0 with page
size 200; with total the x-result-total header of the first response (0
when absent or unparseable), exactly (total - 200 + 199) / 200 further
pages — the ceiling of (total - 200) / 200, zero when total ≤ 200 by
saturating subtraction — are fetched sequentially with size 200 at page
indices 1, 2, ...; the result concatenates the items of all pages in
order. -/
theorem c8_all_by_paging
    (T : EndpointD) (r : CReq) (resps : Nat → RespM (List (Nat × V))) (st : St V)
    (hP : T.PAGING = true) (hA : T.AUTHENTICATED = false) :
    ∃ st2, get_all_by_paging T r (fun i => .ok (resps i)) st =
      .ok (st2, (resps 0).body.map (fun it => it.2) ++
        ((List.range (((get_header String.toNat? (resps 0) "x-result-total").getD 0
            - 200 + 199) / 200)).map
          (fun pg => (resps (0 + 1 + pg)).body.map (fun it => it.2))).flatten) ∧
      st2.calls = st.calls ++
        buildReqU T r.client (r.client.host ++ "/" ++ T.URL)
          (some ("page=" ++ toString 0 ++ "&page_size=" ++ toString 200)) ::
        (List.range (((get_header String.toNat? (resps 0) "x-result-total").getD 0
            - 200 + 199) / 200)).map (fun pg =>
          buildReqU T r.client (r.client.host ++ "/" ++ T.URL)
            (some ("page=" ++ toString (0 + 1 + pg) ++ "&page_size=" ++
              toString 200))) ∧
      st2.calls.length = st.calls.length + 1 +
        (((get_header String.toNat? (resps 0) "x-result-total").getD 0
          - 200 + 199) / 200) := by
  obtain ⟨stMid, hpage, hcalls⟩ := page_ok T r 0 200 (resps 0) st [] hA
  obtain ⟨st2, hloop, hcalls2⟩ := pageLoop_ok T r resps hA
    (((get_header String.toNat? (resps 0) "x-result-total").getD 0 - 200 + 199) / 200)
    0 stMid ([] ++ (resps 0).body.map (fun it => it.2))
  refine ⟨st2, ?_, ?_, ?_⟩
  · simp only [get_all_by_paging]
    rw [if_neg (by simp [hP])]
    simp only [hpage]
    rw [hloop]
    simp
  · rw [hcalls2, hcalls, List.append_assoc]
    rfl
  · rw [hcalls2, hcalls]
    simp only [List.length_append, List.length_cons, List.length_map,
      List.length_range, List.length_nil]

/-- Response environment for the C8 witness: every page reports 450 total
items and carries one item keyed by the page index. -/
def c8resps (i : Nat) : RespM (List (Nat × Nat)) :=
  ⟨[("x-result-total", "450")], [(i, i)]⟩

set_option maxRecDepth 4000 in
/-- Witness for C8: a paging endpoint whose first response reports 450
total items; the run issues the page-0 request plus further pages at
indices starting from 1. -/
theorem c8_all_by_paging_witness :
    ∃ st2, get_all_by_paging (⟨"u", "1", false, false, false, true, 3⟩ : EndpointD)
        (⟨⟨"h", .en, none⟩, 0⟩ : CReq) (fun i => .ok (c8resps i))
        (⟨[], 0, [], 0, []⟩ : St Nat) =
      .ok (st2, (c8resps 0).body.map (fun it => it.2) ++
        ((List.range (((get_header String.toNat? (c8resps 0)
            "x-result-total").getD 0 - 200 + 199) / 200)).map
          (fun pg => (c8resps (0 + 1 + pg)).body.map (fun it => it.2))).flatten) ∧
      st2.calls = ([] : List ReqM) ++
        buildReqU ⟨"u", "1", false, false, false, true, 3⟩ ⟨"h", .en, none⟩
          ("h" ++ "/" ++ "u")
          (some ("page=" ++ toString 0 ++ "&page_size=" ++ toString 200)) ::
        (List.range (((get_header String.toNat? (c8resps 0)
            "x-result-total").getD 0 - 200 + 199) / 200)).map (fun pg =>
          buildReqU ⟨"u", "1", false, false, false, true, 3⟩ ⟨"h", .en, none⟩
            ("h" ++ "/" ++ "u")
            (some ("page=" ++ toString (0 + 1 + pg) ++ "&page_size=" ++
              toString 200))) ∧
      st2.calls.length = List.length ([] : List ReqM) + 1 +
        (((get_header String.toNat? (c8resps 0)
          "x-result-total").getD 0 - 200 + 199) / 200) :=
  c8_all_by_paging ⟨"u", "1", false, false, false, true, 3⟩ ⟨⟨"h", .en, none⟩, 0⟩
    c8resps ⟨[], 0, [], 0, []⟩ rfl rfl

theorem extract_foldl_length (T : EndpointD) (c0 : ClientM) (st : St V) :
    ∀ (ids : List Nat) (acc : List Nat × List V),
      (ids.foldl (extractStep T c0 st) acc).1.length +
        (ids.foldl (extractStep T c0 st) acc).2.length =
      acc.1.length + acc.2.length + ids.length := by
  intro ids
  induction ids with
  | nil => intro acc; simp
  | cons i rest ih =>
    intro acc
    rw [List.foldl_cons, ih]
    unfold extractStep
    cases cacheGet st.cache (singleKey T c0 i) st.now <;> simp <;> omega

theorem extract_length (T : EndpointD) (c0 : ClientM) (ids : List Nat) (st : St V) :
    (extract_many_from_cache T c0 ids st).1.length +
      (extract_many_from_cache T c0 ids st).2.length = ids.length := by
  unfold extract_many_from_cache
  rw [extract_foldl_length]
  simp

theorem triage_length (tri : Nat → BOut V) (l : List Nat) :
    (triage tri l).1.length + (triage tri l).2.1.length +
      (triage tri l).2.2.length = l.length := by
  induction l with
  | nil => rfl
  | cons i rest ih =>
    rw [triage]
    cases tri i <;> simp only [List.length_cons] <;> omega

theorem chunksFuel_length :
    ∀ (fuel : Nat) (l : List α), l.length ≤ fuel →
      (chunksFuel fuel l).length = (l.length + 199) / 200 := by
  intro fuel
  induction fuel with
  | zero =>
    intro l hl
    have hnil : l = [] := List.eq_nil_of_length_eq_zero (Nat.le_zero.mp hl)
    subst hnil
    simp [chunksFuel]
  | succ fuel ih =>
    intro l hl
    match l with
    | [] => simp [chunksFuel]
    | x :: xs =>
      simp only [chunksFuel, List.length_cons]
      have hdl : (List.drop 200 (x :: xs)).length ≤ fuel := by
        simp only [List.length_drop, List.length_cons]
        simp only [List.length_cons] at hl
        omega
      rw [ih _ hdl]
      simp only [List.length_drop, List.length_cons]
      omega

theorem chunksOf200_length (l : List α) :
    (chunksOf200 l).length = (l.length + 199) / 200 :=
  chunksFuel_length l.length l (le_refl _)

theorem chunksFuel_le :
    ∀ (fuel : Nat) (l : List α), ∀ ch ∈ chunksFuel fuel l, ch.length ≤ 200 := by
  intro fuel
  induction fuel with
  | zero =>
    intro l ch hch
    cases l <;> simp [chunksFuel] at hch
  | succ fuel ih =>
    intro l ch hch
    match l with
    | [] => simp [chunksFuel] at hch
    | x :: xs =>
      simp only [chunksFuel] at hch
      rcases List.mem_cons.mp hch with h | h
      · subst h
        simp
      · exact ih _ ch h

theorem chunksOf200_le (l : List α) : ∀ ch ∈ chunksOf200 l, ch.length ≤ 200 :=
  chunksFuel_le l.length l

theorem chunksFuel_eq_nil {fuel : Nat} {l : List α} (hl : l.length ≤ fuel) :
    chunksFuel fuel l = [] ↔ l = [] := by
  match fuel, l with
  | _, [] => simp [chunksFuel]
  | 0, x :: xs => simp at hl
  | fuel + 1, x :: xs => simp [chunksFuel]

theorem chunksFuel_dropLast :
    ∀ (fuel : Nat) (l : List α), l.length ≤ fuel →
      ∀ ch ∈ (chunksFuel fuel l).dropLast, ch.length = 200 := by
  intro fuel
  induction fuel with
  | zero =>
    intro l hl ch hch
    have hnil : l = [] := List.eq_nil_of_length_eq_zero (Nat.le_zero.mp hl)
    subst hnil
    simp [chunksFuel] at hch
  | succ fuel ih =>
    intro l hl ch hch
    match l with
    | [] => simp [chunksFuel] at hch
    | x :: xs =>
      simp only [chunksFuel] at hch
      have hdl : ((x :: xs).drop 200).length ≤ fuel := by
        simp only [List.length_drop, List.length_cons]
        simp only [List.length_cons] at hl
        omega
      by_cases hrest : chunksFuel fuel ((x :: xs).drop 200) = []
      · rw [hrest] at hch
        simp at hch
      · rw [List.dropLast_cons_of_ne_nil hrest] at hch
        rcases List.mem_cons.mp hch with h | h
        · subst h
          have hd : (x :: xs).drop 200 ≠ [] := fun he =>
            hrest ((chunksFuel_eq_nil hdl).mpr he)
          have hlen : ¬(x :: xs).length ≤ 200 := fun hle =>
            hd (List.drop_eq_nil_of_le hle)
          simp only [List.length_take]
          simp only [List.length_cons] at hlen ⊢
          omega
        · exact ih _ hdl ch h

theorem chunksOf200_dropLast (l : List α) :
    ∀ ch ∈ (chunksOf200 l).dropLast, ch.length = 200 :=
  chunksFuel_dropLast l.length l (le_refl _)

theorem processChunks_calls (T : EndpointD) (c0 : ClientM) (cdur : Int)
    (url : String) (chunkEnv : Nat → Except Unit (RespM (List (Nat × V))))
    (hA : T.AUTHENTICATED = false) :
    ∀ (qs : List String) (n : Nat) (st : St V) (res : List V) (txs : List Nat)
      (st2 : St V) (res2 : List V) (txs2 : List Nat),
      processChunks T c0 cdur url chunkEnv n qs st res txs = .ok st2 res2 txs2 →
      st2.calls = st.calls ++
        qs.map (fun q => buildReqU T c0 url (some ("ids=" ++ q))) := by
  intro qs
  induction qs with
  | nil =>
    intro n st res txs st2 res2 txs2 h
    simp only [processChunks] at h
    cases h
    simp
  | cons q qs ih =>
    intro n st res txs st2 res2 txs2 h
    simp only [processChunks] at h
    rw [build_request_ok _ _ _ _ hA] at h
    cases hce : chunkEnv n with
    | error u =>
      rw [hce] at h
      simp at h
    | ok resp =>
      rw [hce] at h
      simp only at h
      cases hsi : sendItems txs resp.body with
      | none =>
        rw [hsi] at h
        simp at h
      | some p =>
        rw [hsi] at h
        simp only at h
        have h2 := ih (n + 1) _ _ _ _ _ _ h
        rw [h2]
        simp

/-- C6: in a successful non-forced many run, after cache extraction
removes the phase-A hits and the triage loop removes the joined ids and
the late cache hits, the claimed ids are split into chunks of at most 200
(only the last chunk possibly smaller), each chunk is dispatched as
exactly one request whose extra query is ids=<comma-joined chunk> (join_ids
writes the first id bare and prefixes every further id with one comma, so
there is no trailing comma), and the number of transport calls is exactly
the ceiling of (L - cached_hits - joined_inflight) / 200, where
cached_hits counts the phase-A and late cache hits together. -/
theorem c6_bulk_chunking
    (T : EndpointD) (r : CReq) (ids : List Nat) (tri : Nat → BOut V)
    (chunkEnv : Nat → Except Unit (RespM (List (Nat × V))))
    (recvEnv : Nat → Except Unit V) (st : St V) (xs : List V) (st2 : St V)
    (hA : T.AUTHENTICATED = false)
    (hok : many T r false ids tri chunkEnv recvEnv st = .ok xs st2) :
    st2.calls.length = st.calls.length +
      (ids.length -
        ((extract_many_from_cache T r.client ids st).2.length +
          (triage tri (extract_many_from_cache T r.client ids st).1).2.2.length) -
        (triage tri (extract_many_from_cache T r.client ids st).1).1.length
        + 199) / 200 ∧
    st2.calls = st.calls ++
      (join_ids (triage tri (extract_many_from_cache T r.client ids st).1).2.1).map
        (fun q => buildReqU T r.client (r.client.host ++ "/" ++ T.URL)
          (some ("ids=" ++ q))) ∧
    (∀ ch ∈ chunksOf200
        (triage tri (extract_many_from_cache T r.client ids st).1).2.1,
      ch.length ≤ 200) ∧
    (∀ ch ∈ (chunksOf200
        (triage tri (extract_many_from_cache T r.client ids st).1).2.1).dropLast,
      ch.length = 200) := by
  have hx := extract_length T r.client ids st
  have ht := triage_length tri (extract_many_from_cache T r.client ids st).1
  by_cases hemp : (extract_many_from_cache T r.client ids st).1 = []
  · simp only [many, Bool.false_eq_true, if_false, not_false_iff, true_and,
      hemp, if_true] at hok
    cases hok
    rw [hemp] at ht
    simp only [triage, List.length_nil] at ht
    refine ⟨?_, ?_, ?_, ?_⟩
    · rw [hemp] at hx
      simp only [List.length_nil] at hx
      simp only [hemp, triage]
      omega
    · simp [hemp, triage, join_ids, chunksOf200, chunksFuel]
    · simp [hemp, triage, chunksOf200, chunksFuel]
    · simp [hemp, triage, chunksOf200, chunksFuel]
  · simp only [many, Bool.false_eq_true, if_false, not_false_iff, true_and,
      hemp, if_false] at hok
    cases hP : processChunks T r.client r.cacheDur (r.client.host ++ "/" ++ T.URL)
        chunkEnv 0
        (join_ids (triage tri (extract_many_from_cache T r.client ids st).1).2.1)
        st
        ((extract_many_from_cache T r.client ids st).2 ++
          (triage tri (extract_many_from_cache T r.client ids st).1).2.2)
        (triage tri (extract_many_from_cache T r.client ids st).1).2.1 with
    | fail e =>
      rw [hP] at hok
      simp at hok
    | panicked =>
      rw [hP] at hok
      simp at hok
    | ok st2a res2 txs2 =>
      rw [hP] at hok
      simp only at hok
      cases hR : recvAll recvEnv 0
          (triage tri (extract_many_from_cache T r.client ids st).1).1.length with
      | none =>
        rw [hR] at hok
        simp at hok
      | some vs =>
        rw [hR] at hok
        simp only at hok
        cases hok
        have hcalls := processChunks_calls T r.client r.cacheDur
          (r.client.host ++ "/" ++ T.URL) chunkEnv hA _ _ _ _ _ _ _ _ hP
        refine ⟨?_, ?_, ?_, ?_⟩
        · rw [hcalls]
          simp only [List.length_append, List.length_map, join_ids,
            chunksOf200_length]
          omega
        · exact hcalls
        · exact chunksOf200_le _
        · exact chunksOf200_dropLast _

/-- Transport environment for the C6 witness: one chunk response carrying
the two requested items. -/
def c6chunkEnv (_ : Nat) : Except Unit (RespM (List (Nat × Nat))) :=
  .ok ⟨[], [(1, 5), (2, 6)]⟩

/-- Witness for C6: two ids, empty cache, both claimed in triage, one
chunk, one transport call. -/
theorem c6_bulk_chunking_witness :
    (⟨[(⟨3, 2, none⟩, 6, 300), (⟨3, 1, none⟩, 5, 300)], 0,
        [⟨"h/u?ids=1,2", [("X-Schema-Version", "1")]⟩], 0, [5, 6]⟩ : St Nat).calls.length
      = ([] : List ReqM).length +
        (([1, 2] : List Nat).length -
          ((extract_many_from_cache ⟨"u", "1", false, false, false, false, 3⟩
              ⟨"h", .en, none⟩ [1, 2] (⟨[], 0, [], 0, []⟩ : St Nat)).2.length +
            (triage ((fun _ => BOut.claims) : Nat → BOut Nat)
              (extract_many_from_cache ⟨"u", "1", false, false, false, false, 3⟩
                ⟨"h", .en, none⟩ [1, 2]
                (⟨[], 0, [], 0, []⟩ : St Nat)).1).2.2.length) -
          (triage ((fun _ => BOut.claims) : Nat → BOut Nat)
            (extract_many_from_cache ⟨"u", "1", false, false, false, false, 3⟩
              ⟨"h", .en, none⟩ [1, 2]
              (⟨[], 0, [], 0, []⟩ : St Nat)).1).1.length + 199) / 200 :=
  (c6_bulk_chunking ⟨"u", "1", false, false, false, false, 3⟩
    ⟨⟨"h", .en, none⟩, 0⟩ [1, 2] (fun _ => BOut.claims) c6chunkEnv
    (fun _ => .ok 0) ⟨[], 0, [], 0, []⟩ [5, 6]
    ⟨[(⟨3, 2, none⟩, 6, 300), (⟨3, 1, none⟩, 5, 300)], 0,
      [⟨"h/u?ids=1,2", [("X-Schema-Version", "1")]⟩], 0, [5, 6]⟩
    rfl (by decide)).1

theorem sendItems_none_of_bad (txs : List Nat) (items : List (Nat × V))
    (hbad : ∃ it ∈ items, it.1 ∉ txs) : sendItems txs items = none := by
  induction items generalizing txs with
  | nil => simp at hbad
  | cons it rest ih =>
    obtain ⟨bad, hmem, hnot⟩ := hbad
    simp only [sendItems]
    by_cases hin : it.1 ∈ txs
    · rw [if_pos hin]
      have hbadrest : bad ∈ rest := by
        rcases List.mem_cons.mp hmem with h | h
        · subst h
          exact absurd hin hnot
        · exact h
      have hnotrest : bad.1 ∉ txs.erase it.1 := fun h =>
        hnot (List.mem_of_mem_erase h)
      rw [ih (txs.erase it.1) ⟨bad, hbadrest, hnotrest⟩]
      rfl
    · rw [if_neg hin]

theorem sendItems_count (txs : List Nat) (items : List (Nat × V))
    (txs2 : List Nat) (sent : List V)
    (h : sendItems txs items = some (txs2, sent)) :
    sent = items.map (fun it => it.2) ∧
    (∀ it ∈ items, it.1 ∈ txs) ∧
    (∀ i : Nat, txs.count i = txs2.count i + (items.map (fun it => it.1)).count i)
    := by
  induction items generalizing txs sent with
  | nil =>
    simp only [sendItems] at h
    cases h
    simp
  | cons it rest ih =>
    simp only [sendItems] at h
    by_cases hin : it.1 ∈ txs
    · rw [if_pos hin] at h
      cases hrec : sendItems (txs.erase it.1) rest with
      | none =>
        rw [hrec] at h
        simp at h
      | some p =>
        rw [hrec] at h
        simp only [Option.map_some'] at h
        cases h
        obtain ⟨hsent, hmem, hcount⟩ := ih (txs.erase it.1) p.2 (by
          cases p
          exact hrec)
        refine ⟨by simp [hsent], ?_, ?_⟩
        · intro x hx
          rcases List.mem_cons.mp hx with hh | hh
          · subst hh
            exact hin
          · exact List.mem_of_mem_erase (hmem x hh)
        · intro i
          have he := List.count_erase i it.1 txs
          have hc := hcount i
          rw [he] at hc
          simp only [List.map_cons, List.count_cons]
          by_cases hi : it.1 = i
          · subst hi
            have hpos : 0 < txs.count it.1 := List.count_pos_iff.mpr hin
            simp only [beq_self_eq_true, if_true] at hc ⊢
            omega
          · have h1 : (it.1 == i) = false := beq_eq_false_iff_ne.mpr hi
            have h2 : (i == it.1) = false := beq_eq_false_iff_ne.mpr (Ne.symm hi)
            simp only [h1, h2, Bool.false_eq_true, if_false] at hc ⊢
            omega
    · rw [if_neg hin] at h
      cases h

theorem processChunks_panic (T : EndpointD) (c0 : ClientM) (cdur : Int)
    (url : String) (chunkEnv : Nat → Except Unit (RespM (List (Nat × V))))
    (n : Nat) (q : String) (qs : List String) (st : St V) (res : List V)
    (txs : List Nat) (resp : RespM (List (Nat × V)))
    (hA : T.AUTHENTICATED = false) (hce : chunkEnv n = .ok resp)
    (hbad : ∃ it ∈ resp.body, it.1 ∉ txs) :
    processChunks T c0 cdur url chunkEnv n (q :: qs) st res txs = .panicked := by
  simp only [processChunks]
  rw [build_request_ok _ _ _ _ hA]
  simp only [hce]
  rw [sendItems_none_of_bad txs resp.body hbad]

/-- C10: in the chunk-dispatch phase of many, every decoded item must
carry an id for which this operation holds a producer guard — a response
item with an unclaimed id makes sendItems return none, the model of the
expect panic, and the whole dispatch ends panicked rather than in an
error; and in every successful dispatch the broadcast values are exactly
the decoded items in order, every decoded id was claimed, and each
decoded item removes exactly one guard-map occurrence of its id (the
count equation). -/
theorem c10_guard_discipline (T : EndpointD) (c0 : ClientM) (cdur : Int)
    (url : String) (chunkEnv : Nat → Except Unit (RespM (List (Nat × V))))
    (n : Nat) (q : String) (qs : List String) (st : St V) (res : List V)
    (txs : List Nat) (items : List (Nat × V)) :
    ((∃ it ∈ items, it.1 ∉ txs) → sendItems txs items = none) ∧
    (T.AUTHENTICATED = false → ∀ resp, chunkEnv n = .ok resp →
      (∃ it ∈ resp.body, it.1 ∉ txs) →
      processChunks T c0 cdur url chunkEnv n (q :: qs) st res txs = .panicked) ∧
    (∀ (txs2 : List Nat) (sent : List V),
      sendItems txs items = some (txs2, sent) →
      sent = items.map (fun it => it.2) ∧
      (∀ it ∈ items, it.1 ∈ txs) ∧
      (∀ i : Nat, txs.count i = txs2.count i +
        (items.map (fun it => it.1)).count i)) :=
  ⟨sendItems_none_of_bad txs items,
    fun hA resp hce hbad =>
      processChunks_panic T c0 cdur url chunkEnv n q qs st res txs resp hA hce hbad,
    fun txs2 sent h => sendItems_count txs items txs2 sent h⟩

/-- Transport environment for the C10 witness: the chunk response carries
an item with id 2 that nobody claimed. -/
def c10chunkEnv (_ : Nat) : Except Unit (RespM (List (Nat × Nat))) :=
  .ok ⟨[], [(2, 9)]⟩

/-- Witness for C10: with guard map [1], a response item with id 2 makes
the dispatch panic; and the successful dispatch over items [(1, 5)]
broadcasts exactly [5] and removes the single guard occurrence of id 1. -/
theorem c10_guard_discipline_witness :
    sendItems [1] [((2 : Nat), (9 : Nat))] = none ∧
    processChunks ⟨"u", "1", false, false, false, false, 3⟩ ⟨"h", .en, none⟩ 0
      "h/u" c10chunkEnv 0 ["2"] (⟨[], 0, [], 0, []⟩ : St Nat) [] [1] =
      .panicked ∧
    ([5] = [((1 : Nat), (5 : Nat))].map (fun it => it.2) ∧
      (∀ it ∈ [((1 : Nat), (5 : Nat))], it.1 ∈ [1]) ∧
      (∀ i : Nat, List.count i [1] = List.count i [] +
        ([((1 : Nat), (5 : Nat))].map (fun it => it.1)).count i)) :=
  ⟨(c10_guard_discipline ⟨"u", "1", false, false, false, false, 3⟩
      ⟨"h", .en, none⟩ 0 "h/u" c10chunkEnv 0 "2" [] (⟨[], 0, [], 0, []⟩ : St Nat)
      [] [1] [((2 : Nat), (9 : Nat))]).1 ⟨(2, 9), by decide, by decide⟩,
    (c10_guard_discipline ⟨"u", "1", false, false, false, false, 3⟩
      ⟨"h", .en, none⟩ 0 "h/u" c10chunkEnv 0 "2" [] (⟨[], 0, [], 0, []⟩ : St Nat)
      [] [1] [((2 : Nat), (9 : Nat))]).2.1 rfl ⟨[], [(2, 9)]⟩ rfl
      ⟨(2, 9), by decide, by decide⟩,
    (c10_guard_discipline ⟨"u", "1", false, false, false, false, 3⟩
      ⟨"h", .en, none⟩ 0 "h/u" c10chunkEnv 0 "2" [] (⟨[], 0, [], 0, []⟩ : St Nat)
      [] [1] [((1 : Nat), (5 : Nat))]).2.2 [] [5] (by decide)⟩

/-- Schedule exhibiting the subscribe-after-broadcast race between two
concurrent single() callers: caller 0 misses the cache, caller 1 misses
the cache, caller 0 claims the producer slot, caller 1 upgrades the weak
handle (and starts awaiting the sender mutex), caller 0 performs the
transport call, inserts into the cache, and in one suspension-free
stretch sends the broadcast, returns and drops its guard; only then does
caller 1 acquire the sender mutex and subscribe — after the send — and
its recv finds the channel closed with no value. -/
def c1Sched : List (Option Nat) :=
  [some 0, some 1, some 0, some 1, some 0, some 0, some 0, some 1, some 1]

/-- The same two callers under the benign interleaving in which caller 1
subscribes before the producer's send. -/
def c1SchedGood : List (Option Nat) :=
  [some 0, some 1, some 0, some 1, some 1, some 0, some 0, some 0, some 1]

/-- C1 (violated by the code): two concurrent non-forced single() requests
for the same key on an empty cache, with a transport that succeeds with
value 7, can end with exactly one transport call, the value cached, caller
0 returning the value — and caller 1 returning a Receive error, because a
joiner that subscribes after the producer's broadcast (the window between
check_inflight's weak upgrade and its subscription on the sender mutex)
never re-consults the cache on the rx.recv path.  The claim says all N
callers return the same value whenever the producer succeeds; the benign
schedule conjunct shows the intended behaviour on the other interleaving
of the same system. -/
theorem c1_coalescing_race :
    ((runSys (fun _ => Except.ok 7) (initSys 2) c1Sched).calls = 1 ∧
      (runSys (fun _ => Except.ok 7) (initSys 2) c1Sched).cache = some 7 ∧
      (runSys (fun _ => Except.ok 7) (initSys 2) c1Sched).tasks =
        [.done (.ok 7), .done (.error .Receive)]) ∧
    ((runSys (fun _ => Except.ok 7) (initSys 2) c1SchedGood).calls = 1 ∧
      (runSys (fun _ => Except.ok 7) (initSys 2) c1SchedGood).tasks =
        [.done (.ok 7), .done (.ok 7)]) := by
  decide

end Gw2
